import Mathlib

/-!
Shallow embedding of the `cortex-a` register-accessor crate: typed bit-field
descriptors for AArch64 virtualization system registers
(`src/regs/*.rs`) and the MCR/MRC trap-syndrome decoder
(`src/iss/mcr_mrc.rs`), together with the generic per-field
read/write/modify machinery these files import from the external
`register` dependency crate.

Machine integers (`u32`/`u64`) are embedded as `Nat`; every operation the
source performs keeps its results inside the register's raw width, which we
track with explicit `2 ^ w` bounds in the theorems.
-/

namespace CortexA

/-- Modelled from the spec: a named bit field of a register layout (§3
  "Field": bit offset from the LSB and bit width).  The
  `register_bitfields!` macro of the external `register` crate (whose source
  is not part of this repository) turns each `NAME OFFSET(o) NUMBITS(n)`
  entry of the source files into such a descriptor. -/
structure Field where
  offset : Nat
  width : Nat
deriving DecidableEq

/-- The unshifted mask of a field, `(1 << width) - 1` (spec §4.1). -/
def Field.mask (f : Field) : Nat := 2 ^ f.width - 1

/-- Modelled from the spec: decode (§4.1), the `register` crate's
  per-field read `(get() & (mask << shift)) >> shift`.  The raw register
  value is the explicit `raw` argument. -/
def fieldRead (f : Field) (raw : Nat) : Nat :=
  (raw &&& (f.mask <<< f.offset)) >>> f.offset

/-- Modelled from the spec: encode (§4.1): clear the field's bits of `raw`
  with the shifted mask `((1 << width) - 1) << offset`, then OR in
  `(v & mask) << offset`; this is the `register` crate's
  `FieldValue::modify`, whose bitwise complement of the shifted mask is
  taken at the register's raw width `w` (32 or 64). -/
def fieldEncode (w : Nat) (f : Field) (raw v : Nat) : Nat :=
  (raw &&& ((2 ^ w - 1) ^^^ (f.mask <<< f.offset))) |||
    ((v &&& f.mask) <<< f.offset)

/-- Modelled from the spec: the `register` crate's per-field `write`,
  which is `set(field.val(v).value)` — the register is overwritten with the
  encoded field value `(v & mask) << offset` alone; the previous raw value
  (the last argument) does not enter the result. -/
def regWrite (f : Field) (v : Nat) (_raw : Nat) : Nat :=
  (v &&& f.mask) <<< f.offset

/-- Modelled from the spec: the per-field read-modify-write composition
  get / encode / set (§4.2), the `register` crate's `modify`: the new raw
  value is `fieldEncode` of the previous one. -/
def regModify (w : Nat) (f : Field) (v : Nat) (raw : Nat) : Nat :=
  fieldEncode w f raw v

/-- Two fields occupy disjoint bit ranges (spec §3 invariant). -/
def Field.disjointFrom (f g : Field) : Prop :=
  f.offset + f.width ≤ g.offset ∨ g.offset + g.width ≤ f.offset

instance (f g : Field) : Decidable (f.disjointFrom g) :=
  inferInstanceAs (Decidable (_ ∨ _))

/-! Register layouts, transcribed field by field from the
`register_bitfields!` blocks of the source files. -/

namespace CCSIDR_EL1

/-- src/regs/ccsidr_el1.rs: NumSets OFFSET(13) NUMBITS(15). -/
def NumSets : Field := ⟨13, 15⟩

/-- src/regs/ccsidr_el1.rs: Associativity OFFSET(3) NUMBITS(10). -/
def Associativity : Field := ⟨3, 10⟩

/-- src/regs/ccsidr_el1.rs: LineSize OFFSET(0) NUMBITS(3). -/
def LineSize : Field := ⟨0, 3⟩

/-- All fields of the CCSIDR_EL1 layout. -/
def fields : List Field := [NumSets, Associativity, LineSize]

end CCSIDR_EL1

namespace CSSELR_EL1

/-- src/regs/csselr_el1.rs: Level OFFSET(1) NUMBITS(3). -/
def Level : Field := ⟨1, 3⟩

/-- src/regs/csselr_el1.rs: InD OFFSET(0) NUMBITS(1). -/
def InD : Field := ⟨0, 1⟩

/-- All fields of the CSSELR_EL1 layout. -/
def fields : List Field := [Level, InD]

end CSSELR_EL1

namespace HCR_EL2

/-- src/regs/hcr_el2.rs: RW OFFSET(31) NUMBITS(1). -/
def RW : Field := ⟨31, 1⟩

/-- src/regs/hcr_el2.rs: DC OFFSET(12) NUMBITS(1). -/
def DC : Field := ⟨12, 1⟩

/-- src/regs/hcr_el2.rs: BSU OFFSET(10) NUMBITS(2). -/
def BSU : Field := ⟨10, 2⟩

/-- src/regs/hcr_el2.rs: FB OFFSET(9) NUMBITS(1). -/
def FB : Field := ⟨9, 1⟩

/-- src/regs/hcr_el2.rs: VSE OFFSET(8) NUMBITS(1). -/
def VSE : Field := ⟨8, 1⟩

/-- src/regs/hcr_el2.rs: VI OFFSET(7) NUMBITS(1). -/
def VI : Field := ⟨7, 1⟩

/-- src/regs/hcr_el2.rs: VF OFFSET(6) NUMBITS(1). -/
def VF : Field := ⟨6, 1⟩

/-- src/regs/hcr_el2.rs: AMO OFFSET(5) NUMBITS(1). -/
def AMO : Field := ⟨5, 1⟩

/-- src/regs/hcr_el2.rs: IMO OFFSET(4) NUMBITS(1). -/
def IMO : Field := ⟨4, 1⟩

/-- src/regs/hcr_el2.rs: FMO OFFSET(3) NUMBITS(1). -/
def FMO : Field := ⟨3, 1⟩

/-- src/regs/hcr_el2.rs: PTW OFFSET(2) NUMBITS(1). -/
def PTW : Field := ⟨2, 1⟩

/-- src/regs/hcr_el2.rs: SWIO OFFSET(1) NUMBITS(1). -/
def SWIO : Field := ⟨1, 1⟩

/-- src/regs/hcr_el2.rs: VM OFFSET(0) NUMBITS(1). -/
def VM : Field := ⟨0, 1⟩

/-- All fields of the HCR_EL2 layout. -/
def fields : List Field :=
  [RW, DC, BSU, FB, VSE, VI, VF, AMO, IMO, FMO, PTW, SWIO, VM]

end HCR_EL2

namespace HSTR_EL2

/-- src/regs/hstr_el2.rs: T15 OFFSET(15) NUMBITS(1). -/
def T15 : Field := ⟨15, 1⟩

/-- src/regs/hstr_el2.rs: T14 OFFSET(14) NUMBITS(1). -/
def T14 : Field := ⟨14, 1⟩

/-- src/regs/hstr_el2.rs: T13 OFFSET(13) NUMBITS(1). -/
def T13 : Field := ⟨13, 1⟩

/-- src/regs/hstr_el2.rs: T12 OFFSET(12) NUMBITS(1). -/
def T12 : Field := ⟨12, 1⟩

/-- src/regs/hstr_el2.rs: T11 OFFSET(11) NUMBITS(1). -/
def T11 : Field := ⟨11, 1⟩

/-- src/regs/hstr_el2.rs: T10 OFFSET(10) NUMBITS(1). -/
def T10 : Field := ⟨10, 1⟩

/-- src/regs/hstr_el2.rs: T9 OFFSET(9) NUMBITS(1). -/
def T9 : Field := ⟨9, 1⟩

/-- src/regs/hstr_el2.rs: T8 OFFSET(8) NUMBITS(1). -/
def T8 : Field := ⟨8, 1⟩

/-- src/regs/hstr_el2.rs: T7 OFFSET(7) NUMBITS(1). -/
def T7 : Field := ⟨7, 1⟩

/-- src/regs/hstr_el2.rs: T6 OFFSET(6) NUMBITS(1). -/
def T6 : Field := ⟨6, 1⟩

/-- src/regs/hstr_el2.rs: T5 OFFSET(5) NUMBITS(1). -/
def T5 : Field := ⟨5, 1⟩

/-- src/regs/hstr_el2.rs: T4 OFFSET(4) NUMBITS(1). -/
def T4 : Field := ⟨4, 1⟩

/-- src/regs/hstr_el2.rs: T3 OFFSET(3) NUMBITS(1). -/
def T3 : Field := ⟨3, 1⟩

/-- src/regs/hstr_el2.rs: T2 OFFSET(2) NUMBITS(1). -/
def T2 : Field := ⟨2, 1⟩

/-- src/regs/hstr_el2.rs: T1 OFFSET(1) NUMBITS(1). -/
def T1 : Field := ⟨1, 1⟩

/-- src/regs/hstr_el2.rs: T0 OFFSET(0) NUMBITS(1). -/
def T0 : Field := ⟨0, 1⟩

/-- All fields of the HSTR_EL2 layout. -/
def fields : List Field :=
  [T15, T14, T13, T12, T11, T10, T9, T8, T7, T6, T5, T4, T3, T2, T1, T0]

end HSTR_EL2

namespace SCTLR_EL2

/-- src/regs/sctlr_el2.rs: I OFFSET(12) NUMBITS(1). -/
def I : Field := ⟨12, 1⟩

/-- src/regs/sctlr_el2.rs: C OFFSET(2) NUMBITS(1). -/
def C : Field := ⟨2, 1⟩

/-- src/regs/sctlr_el2.rs: M OFFSET(0) NUMBITS(1). -/
def M : Field := ⟨0, 1⟩

/-- All fields of the SCTLR_EL2 layout. -/
def fields : List Field := [I, C, M]

end SCTLR_EL2

namespace SPSR_EL2

/-- src/regs/spsr_el2.rs: N OFFSET(31) NUMBITS(1). -/
def N : Field := ⟨31, 1⟩

/-- src/regs/spsr_el2.rs: Z OFFSET(30) NUMBITS(1). -/
def Z : Field := ⟨30, 1⟩

/-- src/regs/spsr_el2.rs: C OFFSET(29) NUMBITS(1). -/
def C : Field := ⟨29, 1⟩

/-- src/regs/spsr_el2.rs: V OFFSET(28) NUMBITS(1). -/
def V : Field := ⟨28, 1⟩

/-- src/regs/spsr_el2.rs: SS OFFSET(21) NUMBITS(1). -/
def SS : Field := ⟨21, 1⟩

/-- src/regs/spsr_el2.rs: IL OFFSET(20) NUMBITS(1). -/
def IL : Field := ⟨20, 1⟩

/-- src/regs/spsr_el2.rs: D OFFSET(9) NUMBITS(1). -/
def D : Field := ⟨9, 1⟩

/-- src/regs/spsr_el2.rs: A OFFSET(8) NUMBITS(1). -/
def A : Field := ⟨8, 1⟩

/-- src/regs/spsr_el2.rs: I OFFSET(7) NUMBITS(1). -/
def I : Field := ⟨7, 1⟩

/-- src/regs/spsr_el2.rs: F OFFSET(6) NUMBITS(1). -/
def F : Field := ⟨6, 1⟩

/-- src/regs/spsr_el2.rs: M4 OFFSET(4) NUMBITS(1). -/
def M4 : Field := ⟨4, 1⟩

/-- src/regs/spsr_el2.rs: M OFFSET(0) NUMBITS(4). -/
def M : Field := ⟨0, 4⟩

/-- All fields of the SPSR_EL2 layout. -/
def fields : List Field := [N, Z, C, V, SS, IL, D, A, I, F, M4, M]

/-- The named legal values of the SPSR_EL2 `M` field, from the enumeration
  in src/regs/spsr_el2.rs. -/
inductive M_Value where
  | EL0t
  | EL1t
  | EL1h
  | EL2t
  | EL2h
  | FIQ
  | IRQ
  | Supervisor
  | Abort
  | Hyp
  | Undefined
  | System
deriving DecidableEq

/-- The integer encoding of each named `M` value (src/regs/spsr_el2.rs). -/
def M_Value.val : M_Value → Nat
  | .EL0t => 0b0000
  | .EL1t => 0b0100
  | .EL1h => 0b0101
  | .EL2t => 0b1000
  | .EL2h => 0b1001
  | .FIQ => 0b0001
  | .IRQ => 0b0010
  | .Supervisor => 0b0011
  | .Abort => 0b0111
  | .Hyp => 0b1010
  | .Undefined => 0b1011
  | .System => 0b1111

/-- Modelled from the spec: best-effort enum lookup (§4.1) for the `M`
  field, the `register` crate's generated `TryFromValue`: an unlisted bit
  pattern has no symbolic name. -/
def M_Value.tryFrom : Nat → Option M_Value
  | 0b0000 => some .EL0t
  | 0b0100 => some .EL1t
  | 0b0101 => some .EL1h
  | 0b1000 => some .EL2t
  | 0b1001 => some .EL2h
  | 0b0001 => some .FIQ
  | 0b0010 => some .IRQ
  | 0b0011 => some .Supervisor
  | 0b0111 => some .Abort
  | 0b1010 => some .Hyp
  | 0b1011 => some .Undefined
  | 0b1111 => some .System
  | _ => none

end SPSR_EL2

namespace TTBR0_EL2

/-- src/regs/ttbr0_el2.rs: ASID OFFSET(48) NUMBITS(16). -/
def ASID : Field := ⟨48, 16⟩

/-- src/regs/ttbr0_el2.rs: BADDR OFFSET(1) NUMBITS(47). -/
def BADDR : Field := ⟨1, 47⟩

/-- src/regs/ttbr0_el2.rs: CnP OFFSET(0) NUMBITS(1). -/
def CnP : Field := ⟨0, 1⟩

/-- All fields of the TTBR0_EL2 layout. -/
def fields : List Field := [ASID, BADDR, CnP]

/-- src/regs/ttbr0_el2.rs `Reg::get_baddr`: `self.read(BADDR) << 1`,
  applied to an explicit raw register value. -/
def get_baddr (raw : Nat) : Nat := fieldRead BADDR raw <<< 1

/-- src/regs/ttbr0_el2.rs `Reg::set_baddr`:
  `self.write(BADDR.val(addr >> 1))`, applied to an explicit raw register
  value (which the underlying per-field write discards). -/
def set_baddr (addr : Nat) (raw : Nat) : Nat := regWrite BADDR (addr >>> 1) raw

end TTBR0_EL2

namespace VBAR_EL2

/-- src/regs/vbar_el2.rs defines no bit fields: the register is accessed
  only as a whole 64-bit value. -/
def fields : List Field := []

end VBAR_EL2

namespace VTTBR_EL2

/-- src/regs/vttbr_el2.rs: VMID OFFSET(48) NUMBITS(16). -/
def VMID : Field := ⟨48, 16⟩

/-- src/regs/vttbr_el2.rs: BADDR OFFSET(1) NUMBITS(47). -/
def BADDR : Field := ⟨1, 47⟩

/-- src/regs/vttbr_el2.rs: CnP OFFSET(0) NUMBITS(1). -/
def CnP : Field := ⟨0, 1⟩

/-- All fields of the VTTBR_EL2 layout. -/
def fields : List Field := [VMID, BADDR, CnP]

/-- src/regs/vttbr_el2.rs `Reg::get_baddr`: `self.read(BADDR) << 1`. -/
def get_baddr (raw : Nat) : Nat := fieldRead BADDR raw <<< 1

/-- src/regs/vttbr_el2.rs `Reg::set_baddr`:
  `self.write(BADDR.val(addr >> 1))`. -/
def set_baddr (addr : Nat) (raw : Nat) : Nat := regWrite BADDR (addr >>> 1) raw

end VTTBR_EL2

namespace ISS

/-- src/iss/mcr_mrc.rs: CV OFFSET(24) NUMBITS(1). -/
def CV : Field := ⟨24, 1⟩

/-- src/iss/mcr_mrc.rs: Cond OFFSET(20) NUMBITS(4). -/
def Cond : Field := ⟨20, 4⟩

/-- src/iss/mcr_mrc.rs: Opc2 OFFSET(17) NUMBITS(3). -/
def Opc2 : Field := ⟨17, 3⟩

/-- src/iss/mcr_mrc.rs: Opc1 OFFSET(14) NUMBITS(3). -/
def Opc1 : Field := ⟨14, 3⟩

/-- src/iss/mcr_mrc.rs: CRn OFFSET(10) NUMBITS(4). -/
def CRn : Field := ⟨10, 4⟩

/-- src/iss/mcr_mrc.rs: Rt OFFSET(5) NUMBITS(5). -/
def Rt : Field := ⟨5, 5⟩

/-- src/iss/mcr_mrc.rs: CRm OFFSET(1) NUMBITS(4). -/
def CRm : Field := ⟨1, 4⟩

/-- src/iss/mcr_mrc.rs: Direction OFFSET(0) NUMBITS(1). -/
def Direction : Field := ⟨0, 1⟩

/-- All fields of the MCR/MRC ISS layout. -/
def fields : List Field := [CV, Cond, Opc2, Opc1, CRn, Rt, CRm, Direction]

/-- The named values of the `Direction` field (src/iss/mcr_mrc.rs). -/
inductive Direction_Value where
  | SystemRegisterWrite
  | SystemRegisterRead
deriving DecidableEq

/-- Integer encoding of each named `Direction` value. -/
def Direction_Value.val : Direction_Value → Nat
  | .SystemRegisterWrite => 0
  | .SystemRegisterRead => 1

/-- Modelled from the spec: best-effort enum lookup (§4.1) for the
  `Direction` field. -/
def Direction_Value.tryFrom : Nat → Option Direction_Value
  | 0 => some .SystemRegisterWrite
  | 1 => some .SystemRegisterRead
  | _ => none

end ISS

/-- src/iss/mcr_mrc.rs `McrMrcAccessIss`: an immutable snapshot of one raw
  32-bit syndrome value. -/
structure McrMrcAccessIss where
  value : Nat
deriving DecidableEq

/-- src/iss/mcr_mrc.rs `McrMrcAccessIss::new`: stores the captured value. -/
def McrMrcAccessIss.new (value : Nat) : McrMrcAccessIss := ⟨value⟩

/-- src/iss/mcr_mrc.rs `RegisterReadOnly::get` for `McrMrcAccessIss`:
  returns the stored value. -/
def McrMrcAccessIss.get (s : McrMrcAccessIss) : Nat := s.value

/-- Modelled from the spec: the `register` crate's read-only per-field
  read, the composition of `get` and decode (§4.2/§4.4). -/
def McrMrcAccessIss.read (s : McrMrcAccessIss) (f : Field) : Nat :=
  fieldRead f s.get

/-- Every register layout of the repository, paired with its raw width:
  the `register_bitfields! {u32, ...}` blocks are 32-bit, the
  `register_bitfields! {u64, ...}` blocks are 64-bit, and VBAR_EL2 is a
  field-less 64-bit register. -/
def layouts : List (Nat × List Field) :=
  [(32, CCSIDR_EL1.fields), (32, CSSELR_EL1.fields), (64, HCR_EL2.fields),
   (32, HSTR_EL2.fields), (32, SCTLR_EL2.fields), (32, SPSR_EL2.fields),
   (64, TTBR0_EL2.fields), (64, VBAR_EL2.fields), (64, VTTBR_EL2.fields),
   (32, ISS.fields)]


/-! Helper lemmas about the generic field machinery. -/

lemma mask_lt (f : Field) : f.mask < 2 ^ f.width :=
  Nat.sub_lt (Nat.two_pow_pos _) one_pos

lemma fieldRead_eq_shift_and (f : Field) (raw : Nat) :
    fieldRead f raw = (raw >>> f.offset) &&& f.mask := by
  apply Nat.eq_of_testBit_eq
  intro i
  simp [fieldRead, Nat.testBit_and, Nat.testBit_shiftRight, Nat.testBit_shiftLeft,
    Nat.add_sub_cancel_left, Nat.le_add_right]

lemma fieldRead_lt (f : Field) (raw : Nat) : fieldRead f raw < 2 ^ f.width := by
  rw [fieldRead_eq_shift_and]
  exact Nat.and_lt_two_pow _ (mask_lt f)

lemma fieldEncode_testBit_outside (w : Nat) (f : Field) (raw v i : Nat)
    (hraw : raw < 2 ^ w) (hi : i < f.offset ∨ f.offset + f.width ≤ i) :
    (fieldEncode w f raw v).testBit i = raw.testBit i := by
  by_cases hiw : i < w
  · simp only [fieldEncode, Field.mask, Nat.testBit_or, Nat.testBit_and,
      Nat.testBit_xor, Nat.testBit_shiftLeft, Nat.testBit_two_pow_sub_one]
    rcases hi with h | h
    · have h1 : ¬ (f.offset ≤ i) := by omega
      simp [h1, hiw]
    · have h1 : f.offset ≤ i := by omega
      have h2 : ¬ (i - f.offset < f.width) := by omega
      simp [h1, h2, hiw]
  · have h0 : raw.testBit i = false :=
      Nat.testBit_lt_two_pow
        (lt_of_lt_of_le hraw (Nat.pow_le_pow_right (by norm_num) (by omega)))
    rw [h0]
    simp only [fieldEncode, Field.mask, Nat.testBit_or, Nat.testBit_and,
      Nat.testBit_xor, Nat.testBit_shiftLeft, Nat.testBit_two_pow_sub_one, h0]
    rcases hi with h | h
    · have h1 : ¬ (f.offset ≤ i) := by omega
      simp [h1, hiw]
    · have h2 : ¬ (i - f.offset < f.width) := by omega
      simp [h2, hiw]

lemma fieldRead_fieldEncode (w : Nat) (f : Field) (raw v : Nat)
    (hf : f.offset + f.width ≤ w) (hv : v < 2 ^ f.width) :
    fieldRead f (fieldEncode w f raw v) = v := by
  rw [fieldRead_eq_shift_and]
  apply Nat.eq_of_testBit_eq
  intro i
  simp only [Nat.testBit_and, Nat.testBit_shiftRight, Field.mask,
    Nat.testBit_two_pow_sub_one]
  by_cases hiw : i < f.width
  · have hin : f.offset + i < w := by omega
    have h1 : (fieldEncode w f raw v).testBit (f.offset + i) =
        (v &&& (2 ^ f.width - 1)).testBit i := by
      simp only [fieldEncode, Field.mask, Nat.testBit_or, Nat.testBit_and,
        Nat.testBit_xor, Nat.testBit_shiftLeft, Nat.testBit_two_pow_sub_one]
      simp [Nat.le_add_right, Nat.add_sub_cancel_left, hiw, hin]
    rw [h1]
    simp [Nat.testBit_and, Nat.testBit_two_pow_sub_one, hiw]
  · have hv0 : v.testBit i = false :=
      Nat.testBit_lt_two_pow
        (lt_of_lt_of_le hv (Nat.pow_le_pow_right (by norm_num) (by omega)))
    simp [hiw, hv0]

lemma layouts_wf : ∀ p ∈ layouts, ∀ f ∈ p.2, f.offset + f.width ≤ p.1 := by
  decide

-- TTBR0/VTTBR helpers
lemma baddr_write_eq (addr raw : Nat) :
    TTBR0_EL2.set_baddr addr raw = ((addr >>> 1) &&& (2 ^ 47 - 1)) <<< 1 := rfl

lemma baddr_write_lt (addr raw : Nat) : TTBR0_EL2.set_baddr addr raw < 2 ^ 48 := by
  rw [baddr_write_eq, Nat.shiftLeft_eq]
  have h1 : (addr >>> 1) &&& (2 ^ 47 - 1) < 2 ^ 47 :=
    Nat.and_lt_two_pow _ (by norm_num)
  omega

lemma baddr_write_asid (addr raw : Nat) :
    fieldRead TTBR0_EL2.ASID (TTBR0_EL2.set_baddr addr raw) = 0 := by
  rw [fieldRead_eq_shift_and]
  have h : TTBR0_EL2.set_baddr addr raw >>> 48 = 0 := by
    rw [Nat.shiftRight_eq_div_pow]
    exact Nat.div_eq_of_lt (baddr_write_lt addr raw)
  show (TTBR0_EL2.set_baddr addr raw >>> 48) &&& (2 ^ 16 - 1) = 0
  rw [h]
  rfl

lemma baddr_write_cnp (addr raw : Nat) :
    fieldRead TTBR0_EL2.CnP (TTBR0_EL2.set_baddr addr raw) = 0 := by
  rw [fieldRead_eq_shift_and]
  show (TTBR0_EL2.set_baddr addr raw >>> 0) &&& (2 ^ 1 - 1) = 0
  rw [baddr_write_eq, Nat.shiftLeft_eq]
  simp [Nat.and_one_is_mod]

lemma baddr_read_write (addr raw : Nat) :
    TTBR0_EL2.get_baddr (TTBR0_EL2.set_baddr addr raw) =
      ((addr >>> 1) &&& (2 ^ 47 - 1)) <<< 1 := by
  show fieldRead TTBR0_EL2.BADDR (TTBR0_EL2.set_baddr addr raw) <<< 1 = _
  rw [fieldRead_eq_shift_and, baddr_write_eq]
  show ((((addr >>> 1) &&& (2 ^ 47 - 1)) <<< 1 >>> 1) &&& (2 ^ 47 - 1)) <<< 1 = _
  rw [Nat.shiftLeft_shiftRight, Nat.and_assoc, Nat.and_self]

lemma div_two_mul_two_eq_and (addr : Nat) (h : addr < 2 ^ 64) :
    addr / 2 * 2 = addr &&& (2 ^ 64 - 2) := by
  apply Nat.eq_of_testBit_eq
  intro i
  have h2 : (2 : Nat) ^ 64 - 2 = (2 ^ 63 - 1) <<< 1 := by
    rw [Nat.shiftLeft_eq]
    norm_num
  have h3 : addr / 2 * 2 = (addr >>> 1) <<< 1 := by
    simp [Nat.shiftRight_eq_div_pow, Nat.shiftLeft_eq]
  rw [h2, h3]
  simp only [Nat.testBit_and, Nat.testBit_shiftLeft, Nat.testBit_shiftRight,
    Nat.testBit_two_pow_sub_one]
  by_cases h1 : 1 ≤ i
  · have h1i : 1 + (i - 1) = i := by omega
    by_cases h63 : i - 1 < 63
    · simp [h1, h63, h1i]
    · have hbit : addr.testBit i = false :=
        Nat.testBit_lt_two_pow
          (lt_of_lt_of_le h (Nat.pow_le_pow_right (by norm_num) (by omega)))
      simp [h1, h63, h1i, hbit]
  · simp [h1]

/-! The claims. -/

/-- C1, counterexample: the per-field `write` of the register machinery is
  not a read-modify-write.  Starting from raw `0x0` on HCR_EL2,
  `write(VM, 1)` does yield raw `0x1`, but the subsequent `write(FMO, 1)`
  yields raw `0x8`, not the claimed `0x9`: bit 0 (VM) is cleared rather than
  preserved. -/
theorem hcr_write_overwrites_cex :
    regWrite HCR_EL2.VM 1 0 = 0x1 ∧
    regWrite HCR_EL2.FMO 1 (regWrite HCR_EL2.VM 1 0) = 0x8 ∧
    ¬ regWrite HCR_EL2.FMO 1 (regWrite HCR_EL2.VM 1 0) = 0x9 ∧
    ¬ (regWrite HCR_EL2.FMO 1 (regWrite HCR_EL2.VM 1 0)).testBit 0 =
        (regWrite HCR_EL2.VM 1 0).testBit 0 := by
  decide

/-- C1, amended: the per-field read-modify-write operation of the register
  machinery is `modify` (the get/encode/set composition), not `write`.
  Starting from raw `0x0` on HCR_EL2, `modify(VM, 1)` yields raw `0x1` and a
  subsequent `modify(FMO, 1)` yields raw `0x9` (bit 3 set, bit 0 still set);
  in general, for every register layout, every field, every starting raw
  value within the register's width and every value `v`, `modify` leaves
  every bit outside the field equal to its value before the operation. -/
theorem modify_is_rmw_preserves_outside :
    (regModify 64 HCR_EL2.VM 1 0 = 0x1 ∧
      regModify 64 HCR_EL2.FMO 1 (regModify 64 HCR_EL2.VM 1 0) = 0x9) ∧
    ∀ p ∈ layouts, ∀ f ∈ p.2, ∀ raw < 2 ^ p.1, ∀ v i,
      i < f.offset ∨ f.offset + f.width ≤ i →
      (regModify p.1 f v raw).testBit i = raw.testBit i := by
  refine ⟨⟨by decide, by decide⟩, ?_⟩
  intro p _ f _ raw hraw v i hi
  exact fieldEncode_testBit_outside p.1 f raw v i hraw hi

/-- Witness for the amended C1 at HCR_EL2.FMO, raw `9`, bit 0. -/
theorem modify_is_rmw_preserves_outside_witness :
    (regModify 64 HCR_EL2.FMO 1 9).testBit 0 = (9 : Nat).testBit 0 :=
  modify_is_rmw_preserves_outside.2 (64, HCR_EL2.fields) (by decide)
    HCR_EL2.FMO (by decide) 9 (by decide) 1 0 (Or.inl (by decide))

/-- C2: for TTBR0_EL2 and VTTBR_EL2, `set_baddr(addr)` overwrites the
  entire register: afterwards the raw register value equals
  `((addr >> 1) & ((1 << 47) - 1)) << 1`, so the ASID/VMID field and the
  CnP bit read back as `0` regardless of their value before the call. -/
theorem set_baddr_overwrites_whole_register :
    ∀ addr raw : Nat,
      TTBR0_EL2.set_baddr addr raw = ((addr >>> 1) &&& (2 ^ 47 - 1)) <<< 1 ∧
      fieldRead TTBR0_EL2.ASID (TTBR0_EL2.set_baddr addr raw) = 0 ∧
      fieldRead TTBR0_EL2.CnP (TTBR0_EL2.set_baddr addr raw) = 0 ∧
      VTTBR_EL2.set_baddr addr raw = ((addr >>> 1) &&& (2 ^ 47 - 1)) <<< 1 ∧
      fieldRead VTTBR_EL2.VMID (VTTBR_EL2.set_baddr addr raw) = 0 ∧
      fieldRead VTTBR_EL2.CnP (VTTBR_EL2.set_baddr addr raw) = 0 := by
  intro addr raw
  exact ⟨baddr_write_eq addr raw, baddr_write_asid addr raw, baddr_write_cnp addr raw,
    baddr_write_eq addr raw, baddr_write_asid addr raw, baddr_write_cnp addr raw⟩

/-- C3: for every field of every register layout, for every value `v` in
  `[0, 2^width - 1]` and every starting raw value, decoding the field from
  `encode(raw, field, v)` returns exactly `v`; moreover decode computes
  `(raw >> offset) & ((1 << width) - 1)` and its result always fits in
  `width` bits. -/
theorem decode_encode_roundtrip :
    ∀ p ∈ layouts, ∀ f ∈ p.2,
      (∀ raw v, v < 2 ^ f.width → fieldRead f (fieldEncode p.1 f raw v) = v) ∧
      ∀ raw, fieldRead f raw = (raw >>> f.offset) &&& (2 ^ f.width - 1) ∧
        fieldRead f raw < 2 ^ f.width := by
  intro p hp f hf
  exact ⟨fun raw v hv => fieldRead_fieldEncode p.1 f raw v (layouts_wf p hp f hf) hv,
    fun raw => ⟨fieldRead_eq_shift_and f raw, fieldRead_lt f raw⟩⟩

/-- Witness for C3 at the ISS `Rt` field with `raw = 0xFFFFFFFF` and
  `v = 0x1F`. -/
theorem decode_encode_roundtrip_witness :
    fieldRead ISS.Rt (fieldEncode 32 ISS.Rt 0xFFFFFFFF 0x1F) = 0x1F :=
  (decode_encode_roundtrip (32, ISS.fields) (by decide) ISS.Rt (by decide)).1
    0xFFFFFFFF 0x1F (by decide)

/-- C4: for every field of every register layout, for every raw value
  within the register's width and every value `v`,
  `encode(raw, field, v)` differs from `raw` only within bit positions
  `[offset, offset + width)`; every bit outside that range equals the
  corresponding bit of the original raw value. -/
theorem encode_noninterference :
    ∀ p ∈ layouts, ∀ f ∈ p.2, ∀ raw < 2 ^ p.1, ∀ v i,
      i < f.offset ∨ f.offset + f.width ≤ i →
      (fieldEncode p.1 f raw v).testBit i = raw.testBit i := by
  intro p _ f _ raw hraw v i hi
  exact fieldEncode_testBit_outside p.1 f raw v i hraw hi

/-- Witness for C4 at the HSTR_EL2 `T0` field, raw `0xFFFF`, bit 5. -/
theorem encode_noninterference_witness :
    (fieldEncode 32 HSTR_EL2.T0 0xFFFF 1).testBit 5 = (0xFFFF : Nat).testBit 5 :=
  encode_noninterference (32, HSTR_EL2.fields) (by decide) HSTR_EL2.T0 (by decide)
    0xFFFF (by decide) 1 5 (Or.inr (by decide))

/-- C5: composite base-address round-trip on TTBR0_EL2 and VTTBR_EL2.
  After `set_baddr(0x0000_4000_0000)` the stored BADDR field value is
  `0x0000_2000_0000` and `get_baddr()` returns `0x0000_4000_0000`; in
  general, for every address representable in 48 bits, `get_baddr` after
  `set_baddr(address)` returns `address` unchanged when the address is even
  and `address & !1` otherwise (`!1` taken at the 64-bit register width). -/
theorem baddr_roundtrip :
    (fieldRead TTBR0_EL2.BADDR (TTBR0_EL2.set_baddr 0x4000000000 0) = 0x2000000000 ∧
      TTBR0_EL2.get_baddr (TTBR0_EL2.set_baddr 0x4000000000 0) = 0x4000000000) ∧
    ∀ addr raw : Nat, addr < 2 ^ 48 →
      (addr % 2 = 0 →
        TTBR0_EL2.get_baddr (TTBR0_EL2.set_baddr addr raw) = addr ∧
        VTTBR_EL2.get_baddr (VTTBR_EL2.set_baddr addr raw) = addr) ∧
      TTBR0_EL2.get_baddr (TTBR0_EL2.set_baddr addr raw) = addr &&& (2 ^ 64 - 2) ∧
      VTTBR_EL2.get_baddr (VTTBR_EL2.set_baddr addr raw) = addr &&& (2 ^ 64 - 2) := by
  refine ⟨⟨by decide, by decide⟩, ?_⟩
  intro addr raw haddr
  have hdiv : addr / 2 < 2 ^ 47 := by omega
  have hkey : TTBR0_EL2.get_baddr (TTBR0_EL2.set_baddr addr raw) = addr / 2 * 2 := by
    rw [baddr_read_write, Nat.shiftRight_eq_div_pow, pow_one,
      Nat.and_pow_two_sub_one_of_lt_two_pow hdiv, Nat.shiftLeft_eq, pow_one]
  have hkey2 : VTTBR_EL2.get_baddr (VTTBR_EL2.set_baddr addr raw) = addr / 2 * 2 := hkey
  have h64 : addr < 2 ^ 64 :=
    lt_of_lt_of_le haddr (Nat.pow_le_pow_right (by norm_num) (by norm_num))
  refine ⟨fun heven => ⟨?_, ?_⟩, ?_, ?_⟩
  · rw [hkey]; omega
  · rw [hkey2]; omega
  · rw [hkey]; exact div_two_mul_two_eq_and addr h64
  · rw [hkey2]; exact div_two_mul_two_eq_and addr h64

/-- Witness for C5 at `addr = 0x0000_4000_0000` over starting raw `5`. -/
theorem baddr_roundtrip_witness :
    TTBR0_EL2.get_baddr (TTBR0_EL2.set_baddr 0x4000000000 5) = 0x4000000000 :=
  ((baddr_roundtrip.2 0x4000000000 5 (by decide)).1 (by decide)).1

/-- C6: silent truncation.  For every field, raw value and value `v`,
  `encode(raw, field, v)` produces output identical to
  `encode(raw, field, v & ((1 << width) - 1))`, and likewise for the
  overwriting per-field `write`; out-of-range values are masked and the
  operations are total, never rejecting an input. -/
theorem encode_silent_truncation :
    ∀ (w : Nat) (f : Field) (raw v : Nat),
      fieldEncode w f raw v = fieldEncode w f raw (v &&& (2 ^ f.width - 1)) ∧
      regWrite f v raw = regWrite f (v &&& (2 ^ f.width - 1)) raw := by
  intro w f raw v
  constructor <;>
    simp [fieldEncode, regWrite, Field.mask, Nat.and_assoc]

/-- C7: decoding the raw 32-bit value `0x1F00_3C21` with the ISS layout
  yields Direction = 1 (`SystemRegisterRead`), CRm = bits `[4:1]` of the
  raw value = `0`, Rt = bits `[9:5]` = `1`, and CRn = bits `[13:10]` =
  `15`. -/
theorem mcr_mrc_decode_scenario :
    (McrMrcAccessIss.new 0x1F003C21).read ISS.Direction = 1 ∧
    ISS.Direction_Value.tryFrom ((McrMrcAccessIss.new 0x1F003C21).read ISS.Direction) =
      some ISS.Direction_Value.SystemRegisterRead ∧
    (McrMrcAccessIss.new 0x1F003C21).read ISS.CRm = (0x1F003C21 >>> 1) &&& (2 ^ 4 - 1) ∧
    (McrMrcAccessIss.new 0x1F003C21).read ISS.CRm = 0 ∧
    (McrMrcAccessIss.new 0x1F003C21).read ISS.Rt = (0x1F003C21 >>> 5) &&& (2 ^ 5 - 1) ∧
    (McrMrcAccessIss.new 0x1F003C21).read ISS.Rt = 1 ∧
    (McrMrcAccessIss.new 0x1F003C21).read ISS.CRn = (0x1F003C21 >>> 10) &&& (2 ^ 4 - 1) ∧
    (McrMrcAccessIss.new 0x1F003C21).read ISS.CRn = 15 := by
  decide

/-- C8: decoding raw `0b1001` with the SPSR_EL2 layout yields `M`
  (offset 0, width 4) equal to `0b1001`, whose symbolic enumerated name is
  `EL2h`. -/
theorem spsr_mode_decode_scenario :
    fieldRead SPSR_EL2.M 0b1001 = 0b1001 ∧
    SPSR_EL2.M_Value.tryFrom
        (fieldRead SPSR_EL2.M 0b1001) =
      some SPSR_EL2.M_Value.EL2h ∧
    SPSR_EL2.M_Value.val SPSR_EL2.M_Value.EL2h = 0b1001 := by
  decide

/-- C9: layout well-formedness.  For every register layout defined in the
  repository, any two distinct fields occupy disjoint bit ranges, and for
  every field `offset + width` does not exceed the layout's raw width. -/
theorem layouts_wellformed :
    ∀ p ∈ layouts,
      (∀ f ∈ p.2, ∀ g ∈ p.2, f ≠ g → f.disjointFrom g) ∧
      ∀ f ∈ p.2, f.offset + f.width ≤ p.1 := by
  decide

/-- Witness for C9 at the HCR_EL2 layout: FMO and VM are disjoint, and RW
  fits in 64 bits. -/
theorem layouts_wellformed_witness :
    HCR_EL2.FMO.disjointFrom HCR_EL2.VM ∧
      HCR_EL2.RW.offset + HCR_EL2.RW.width ≤ 64 :=
  ⟨(layouts_wellformed (64, HCR_EL2.fields) (by decide)).1 HCR_EL2.FMO (by decide)
      HCR_EL2.VM (by decide) (by decide),
    (layouts_wellformed (64, HCR_EL2.fields) (by decide)).2 HCR_EL2.RW (by decide)⟩

/-- C10: for every 32-bit value `v`, constructing `McrMrcAccessIss::new(v)`
  and reading any of its fields is well-defined and never fails: `get()`
  returns exactly the captured value `v`, each per-field read is a pure
  function of that stored value, and each decoded field fits in its
  width. -/
theorem syndrome_decoder_total :
    ∀ v : Nat, v < 2 ^ 32 →
      (McrMrcAccessIss.new v).get = v ∧
      (McrMrcAccessIss.new v).value = v ∧
      ∀ f ∈ ISS.fields,
        (McrMrcAccessIss.new v).read f = fieldRead f v ∧
        (McrMrcAccessIss.new v).read f < 2 ^ f.width := by
  intro v _
  exact ⟨rfl, rfl, fun f _ => ⟨rfl, fieldRead_lt f v⟩⟩

/-- Witness for C10 at `v = 0x1F00_3C21` with the `CV` field. -/
theorem syndrome_decoder_total_witness :
    (McrMrcAccessIss.new 0x1F003C21).get = 0x1F003C21 ∧
      (McrMrcAccessIss.new 0x1F003C21).read ISS.CV < 2 ^ 1 :=
  ⟨(syndrome_decoder_total 0x1F003C21 (by decide)).1,
    ((syndrome_decoder_total 0x1F003C21 (by decide)).2.2 ISS.CV (by decide)).2⟩


end CortexA
